import Mathlib

/-!
Verification development for the netbox multi-protocol TCP server framework.

We give a shallow embedding, in Lean, of the parts of the source that the
specification's claims are about:

* the WebSocket protocol engine (`WebSocketProtocol.cpp`): UTF-8 check,
  frame-header parsing, frame dispatch, payload unmasking, frame creation,
  handshake handling and the `onDataReceived` state machine;
* the RESP protocol engine (`PureRedisProtocol.cpp`): `resp_decode`,
  `executeRedisCommand`, the RESP formatters and `onClientDataReceived`;
* the connection engine's send queue (`TcpServer.cpp`): `sendData` and
  `flushSendBuffer`.

Bytes are modelled as `Nat` (the C++ code works on `unsigned char` values,
always < 256; none of the operations below need that bound, so we do not
carry it around).  Byte strings (`std::string`, `std::vector<char>`) are
`List Nat`.  Fallible or throwing code returns `Option` / explicit result
types.  Callbacks (`packetCallback_`, `rawFrameCallback_`) are modelled as
output lists collected by the functions that would invoke them.
-/

/-- ASCII bytes of a Lean string literal (all literals used are ASCII). -/
def strBytes (s : String) : List Nat := s.data.map Char.toNat

/-! ## WebSocket: payload unmasking (`WebSocketProtocol::unmaskPayload`)

The C++ loop is `result.push_back(payload[i] ^ maskingKey[i % 4])`.
The masking key is four independent bytes, indexed by `i % 4` with no
byte-order conversion. -/

/-- Helper for `unmaskPayload`: XOR the bytes of `p` with `key[(i0 + j) % 4]`
where `j` is the position inside `p`. -/
def unmaskFrom (key : List Nat) : Nat → List Nat → List Nat
  | _, [] => []
  | i, b :: bs => (b ^^^ key.getD (i % 4) 0) :: unmaskFrom key (i + 1) bs

/-- Embedding of `WebSocketProtocol::unmaskPayload`: byte-wise XOR of the
payload with the 4-byte masking key, `payload[i] ^ key[i % 4]`. -/
def unmaskPayload (payload : List Nat) (key : List Nat) : List Nat :=
  unmaskFrom key 0 payload

/-! ## WebSocket: UTF-8 validation (`isValidUtf8` in `WebSocketProtocol.cpp`)

The C++ validator checks only the lead-byte / continuation-byte structure:
`0xxxxxxx`, `110xxxxx 10xxxxxx`, `1110xxxx 10xxxxxx 10xxxxxx`,
`11110xxx 10xxxxxx 10xxxxxx 10xxxxxx`.  It performs no code-point range
checks (overlong forms, surrogates and values above U+10FFFF pass). -/

/-- Embedding of the file-static `isValidUtf8` of `WebSocketProtocol.cpp`. -/
def isValidUtf8 : List Nat → Bool
  | [] => true
  | c :: rest =>
    if c < 0x80 then isValidUtf8 rest
    else if c &&& 0xE0 == 0xC0 then
      match rest with
      | b1 :: rest2 => (b1 &&& 0xC0 == 0x80) && isValidUtf8 rest2
      | [] => false
    else if c &&& 0xF0 == 0xE0 then
      match rest with
      | b1 :: b2 :: rest3 =>
        (b1 &&& 0xC0 == 0x80) && (b2 &&& 0xC0 == 0x80) && isValidUtf8 rest3
      | _ => false
    else if c &&& 0xF8 == 0xF0 then
      match rest with
      | b1 :: b2 :: b3 :: rest4 =>
        (b1 &&& 0xC0 == 0x80) && (b2 &&& 0xC0 == 0x80) && (b3 &&& 0xC0 == 0x80)
          && isValidUtf8 rest4
      | _ => false
    else false

/-- Modelled from the spec: "strict UTF-8 validation".  Standard strict UTF-8
(RFC 3629): shortest-form encodings only, no surrogates, code points at most
U+10FFFF.  This is the spec-side comparison definition for claim C2; the
source's `isValidUtf8` above is the code-side one. -/
def strictUtf8 : List Nat → Bool
  | [] => true
  | c :: rest =>
    if c < 0x80 then strictUtf8 rest
    else if 0xC2 ≤ c && c ≤ 0xDF then
      match rest with
      | b1 :: r => (0x80 ≤ b1 && b1 ≤ 0xBF) && strictUtf8 r
      | [] => false
    else if 0xE0 ≤ c && c ≤ 0xEF then
      match rest with
      | b1 :: b2 :: r =>
        let lo1 := if c == 0xE0 then 0xA0 else 0x80
        let hi1 := if c == 0xED then 0x9F else 0xBF
        (lo1 ≤ b1 && b1 ≤ hi1) && (0x80 ≤ b2 && b2 ≤ 0xBF) && strictUtf8 r
      | _ => false
    else if 0xF0 ≤ c && c ≤ 0xF4 then
      match rest with
      | b1 :: b2 :: b3 :: r =>
        let lo1 := if c == 0xF0 then 0x90 else 0x80
        let hi1 := if c == 0xF4 then 0x8F else 0xBF
        (lo1 ≤ b1 && b1 ≤ hi1) && (0x80 ≤ b2 && b2 ≤ 0xBF)
          && (0x80 ≤ b3 && b3 ≤ 0xBF) && strictUtf8 r
      | _ => false
    else false

/-! ## WebSocket: frame headers and frame creation -/

/-- Maximum single-frame payload accepted by the parser (10 MiB),
`MAX_FRAME_SIZE` in `WebSocketProtocol.cpp`. -/
def MAX_FRAME_SIZE : Nat := 10 * 1024 * 1024

/-- Embedding of `WebSocketProtocol::FrameHeader`.  The opcode is kept as the
raw 4-bit value (the C++ `FrameType` cast preserves it). -/
structure FrameHeader where
  fin : Bool
  rsv1 : Bool
  rsv2 : Bool
  rsv3 : Bool
  opcode : Nat
  masked : Bool
  payload_length : Nat
  masking_key : List Nat
  deriving Repr, DecidableEq

/-- Embedding of `WebSocketProtocol::readUint16` (big-endian). -/
def readUint16 (b0 b1 : Nat) : Nat := b0 * 256 + b1

/-- Embedding of `WebSocketProtocol::readUint64` (big-endian, 8 bytes). -/
def readUint64 (bs : List Nat) : Nat := bs.foldl (fun acc b => acc * 256 + b) 0

/-- Embedding of `WebSocketProtocol::writeUint16`: two big-endian bytes. -/
def writeUint16Bytes (v : Nat) : List Nat := [(v >>> 8) &&& 0xFF, v &&& 0xFF]

/-- Embedding of `WebSocketProtocol::writeUint64`: eight big-endian bytes. -/
def writeUint64Bytes (v : Nat) : List Nat :=
  [(v >>> 56) &&& 0xFF, (v >>> 48) &&& 0xFF, (v >>> 40) &&& 0xFF,
   (v >>> 32) &&& 0xFF, (v >>> 24) &&& 0xFF, (v >>> 16) &&& 0xFF,
   (v >>> 8) &&& 0xFF, v &&& 0xFF]

/-- Embedding of `WebSocketProtocol::parseFrameHeader`.  Returns the header
and the header size, or `none` when more data is needed or the payload
exceeds `MAX_FRAME_SIZE` (both make the C++ function return `false`). -/
def parseFrameHeader (data : List Nat) : Option (FrameHeader × Nat) :=
  if data.length < 2 then none
  else
    let byte1 := data.getD 0 0
    let byte2 := data.getD 1 0
    let opcode := byte1 &&& 0x0F
    let masked := byte2 &&& 0x80 != 0
    let pl0 := byte2 &&& 0x7F
    let step1 : Option (Nat × Nat) :=
      if pl0 == 126 then
        if data.length < 4 then none
        else some (readUint16 (data.getD 2 0) (data.getD 3 0), 4)
      else if pl0 == 127 then
        if data.length < 10 then none
        else some (readUint64 ((data.drop 2).take 8), 10)
      else some (pl0, 2)
    match step1 with
    | none => none
    | some (pl, pos) =>
      let step2 : Option (List Nat × Nat) :=
        if masked then
          if data.length < pos + 4 then none
          else some ((data.drop pos).take 4, pos + 4)
        else some ([0, 0, 0, 0], pos)
      match step2 with
      | none => none
      | some (key, pos2) =>
        if pl > MAX_FRAME_SIZE then none
        else some (⟨byte1 &&& 0x80 != 0, byte1 &&& 0x40 != 0, byte1 &&& 0x20 != 0,
                    byte1 &&& 0x10 != 0, opcode, masked, pl, key⟩, pos2)

/-- Embedding of `WebSocketProtocol::createFrame` (server frames, mask bit 0). -/
def createFrame (opcode : Nat) (payload : List Nat) (fin : Bool) : List Nat :=
  let byte1 := (if fin then 0x80 else 0) ||| opcode
  if payload.length < 126 then
    byte1 :: payload.length :: payload
  else if payload.length ≤ 0xFFFF then
    byte1 :: 126 :: (writeUint16Bytes payload.length ++ payload)
  else
    byte1 :: 127 :: (writeUint64Bytes payload.length ++ payload)

/-- Embedding of `WebSocketProtocol::packClose`: CLOSE frame whose payload is
the big-endian 16-bit status code followed by the reason text. -/
def packClose (code : Nat) (reason : List Nat) : List Nat :=
  createFrame 0x8 (writeUint16Bytes code ++ reason) true

/-- Embedding of `WebSocketProtocol::packPong` via `packMessage`. -/
def packPong (payload : List Nat) : List Nat := createFrame 0xA payload true

/-! ## WebSocket: frame dispatch (`WebSocketProtocol::parseFrame`) -/

/-- Embedding of `WebSocketProtocol::State` (`OPEN` is rendered `opened`
because `open` is a Lean keyword). -/
inductive WSState where
  | connecting
  | opened
  | closing
  | closed
  deriving Repr, DecidableEq

/-- Result of one `parseFrame` call: the C++ return value (`ok`), the
`bytesConsumed` out-parameter, the state after the call (the C++ method
mutates `state_`), the raw frames emitted through `rawFrameCallback_` and the
application packets emitted through `packetCallback_`. -/
structure PFOut where
  ok : Bool
  consumed : Nat
  st : WSState
  raws : List (List Nat)
  pkts : List (List Nat)
  deriving Repr, DecidableEq

/-- Embedding of `WebSocketProtocol::parseFrame`.  Mirrors the source: the
early opcode sanity check (`opcode > 0x0A` rejects with 0 bytes consumed and
no side effect), then header parsing, completeness check, unmasking, and the
`switch` on the opcode whose cases are TEXT (1), BINARY (2), PING (9),
PONG (10), CLOSE (8); every other value — including CONTINUATION (0), which
has no `case` label — falls into `default` (CLOSE 1003, state CLOSED). -/
def parseFrame (st : WSState) (data : List Nat) : PFOut :=
  if data.length < 2 then ⟨false, 0, st, [], []⟩
  else if (data.getD 0 0) &&& 0x0F > 0x0A then ⟨false, 0, st, [], []⟩
  else match parseFrameHeader data with
  | none => ⟨false, 0, st, [], []⟩
  | some (h, headerSize) =>
    let total := headerSize + h.payload_length
    if data.length < total then ⟨false, 0, st, [], []⟩
    else
      let raw := (data.drop headerSize).take h.payload_length
      let payloadData := if h.masked then unmaskPayload raw h.masking_key else raw
      if h.opcode = 0x1 then
        if isValidUtf8 payloadData then ⟨true, total, st, [], [payloadData]⟩
        else if st = .closed then ⟨false, total, st, [], []⟩
        else ⟨false, total, .closed,
              [packClose 1007 (strBytes "Invalid UTF-8 in TEXT frame")], []⟩
      else if h.opcode = 0x2 then ⟨true, total, st, [], [payloadData]⟩
      else if h.opcode = 0x9 then ⟨true, total, st, [packPong payloadData], []⟩
      else if h.opcode = 0xA then ⟨true, total, st, [], []⟩
      else if h.opcode = 0x8 then ⟨false, total, .closed, [], []⟩
      else ⟨false, total, .closed,
            [packClose 1003 (strBytes "Unknown frame type")], []⟩

/-! ## Byte-string search (`std::string::find`) -/

/-- Fuel-indexed scan for `findFrom`. -/
def findFromGo (buf pat : List Nat) : Nat → Nat → Option Nat
  | 0, _ => none
  | fuel + 1, i =>
    if i + pat.length ≤ buf.length && pat.isPrefixOf (buf.drop i) then some i
    else findFromGo buf pat fuel (i + 1)

/-- Embedding of `std::string::find(pat, start)`: smallest index `i ≥ start`
at which `pat` occurs entirely inside `buf`; `none` plays `npos`. -/
def findFrom (buf pat : List Nat) (start : Nat) : Option Nat :=
  findFromGo buf pat (buf.length + 1 - start) start

/-! ## SHA-1 and Base64

The source calls OpenSSL's `SHA1` and a `base64_encode` whose implementation
file is not part of the sources at hand (only `base64.h` is).  Both are
modelled from the spec. -/

/-- Left-rotation of a 32-bit word. -/
def rotl32 (n x : Nat) : Nat := ((x <<< n) ||| (x >>> (32 - n))) % 2 ^ 32

/-- Modelled from the spec: SHA-1 message padding (the implementation behind
the `SHA1` OpenSSL call is external to the sources).  Appends `0x80`, zero
bytes to 56 mod 64, then the bit length as 8 big-endian bytes. -/
def sha1Pad (msg : List Nat) : List Nat :=
  let padLen := (120 - (msg.length + 1) % 64) % 64
  msg ++ [0x80] ++ List.replicate padLen 0 ++ writeUint64Bytes (msg.length * 8)

/-- Big-endian 32-bit words from a list of bytes (4 bytes per word). -/
def bytesToWords : List Nat → List Nat
  | b0 :: b1 :: b2 :: b3 :: rest =>
    (((b0 * 256 + b1) * 256 + b2) * 256 + b3) :: bytesToWords rest
  | _ => []

/-- Message-schedule extension: append `count` further words, each
`rotl1(w[t-3] xor w[t-8] xor w[t-14] xor w[t-16])`. -/
def sha1Extend : Nat → List Nat → List Nat
  | 0, w => w
  | count + 1, w =>
    let t := w.length
    sha1Extend count
      (w ++ [rotl32 1 ((w.getD (t - 3) 0) ^^^ (w.getD (t - 8) 0) ^^^
                       (w.getD (t - 14) 0) ^^^ (w.getD (t - 16) 0))])

/-- One SHA-1 round on the working state `(a, b, c, d, e)`. -/
def sha1Round (i : Nat) (wt : Nat) :
    Nat × Nat × Nat × Nat × Nat → Nat × Nat × Nat × Nat × Nat :=
  fun (a, b, c, d, e) =>
    let f :=
      if i < 20 then (b &&& c) ||| ((2 ^ 32 - 1 - b) &&& d)
      else if i < 40 then b ^^^ c ^^^ d
      else if i < 60 then (b &&& c) ||| (b &&& d) ||| (c &&& d)
      else b ^^^ c ^^^ d
    let k :=
      if i < 20 then 0x5A827999
      else if i < 40 then 0x6ED9EBA1
      else if i < 60 then 0x8F1BBCDC
      else 0xCA62C1D6
    let temp := (rotl32 5 a + f + e + k + wt) % 2 ^ 32
    (temp, a, rotl32 30 b, c, d)

/-- Fold the 80 scheduled words of one block through the round function. -/
def sha1Block (h0 h1 h2 h3 h4 : Nat) (ws : List Nat) : Nat × Nat × Nat × Nat × Nat :=
  let (a, b, c, d, e) :=
    (List.range 80).foldl (fun st i => sha1Round i (ws.getD i 0) st) (h0, h1, h2, h3, h4)
  ((h0 + a) % 2 ^ 32, (h1 + b) % 2 ^ 32, (h2 + c) % 2 ^ 32,
   (h3 + d) % 2 ^ 32, (h4 + e) % 2 ^ 32)

/-- Split a byte list into successive 64-byte chunks (fuel-indexed so the
definition is structural and evaluates inside the kernel). -/
def chunks64 : Nat → List Nat → List (List Nat)
  | 0, _ => []
  | _, [] => []
  | fuel + 1, bs => bs.take 64 :: chunks64 fuel (bs.drop 64)

/-- Process the padded message, 64-byte blocks at a time. -/
def sha1Blocks (h0 h1 h2 h3 h4 : Nat) (blocks : List (List Nat)) :
    Nat × Nat × Nat × Nat × Nat :=
  blocks.foldl
    (fun (h : Nat × Nat × Nat × Nat × Nat) block =>
      sha1Block h.1 h.2.1 h.2.2.1 h.2.2.2.1 h.2.2.2.2 (sha1Extend 64 (bytesToWords block)))
    (h0, h1, h2, h3, h4)

/-- Modelled from the spec: SHA-1 of a byte string, as 20 digest bytes (the
OpenSSL `SHA1` the source calls is external to the sources). -/
def sha1 (msg : List Nat) : List Nat :=
  let padded := sha1Pad msg
  let (h0, h1, h2, h3, h4) :=
    sha1Blocks 0x67452301 0xEFCDAB89 0x98BADCFE 0x10325476 0xC3D2E1F0
      (chunks64 (padded.length + 1) padded)
  ((writeUint64Bytes h0).drop 4) ++ ((writeUint64Bytes h1).drop 4) ++
  ((writeUint64Bytes h2).drop 4) ++ ((writeUint64Bytes h3).drop 4) ++
  ((writeUint64Bytes h4).drop 4)

/-- Standard Base64 alphabet. -/
def base64Chars : List Nat :=
  strBytes "ABCDEFGHIJKLMNOPQRSTUVWXYZabcdefghijklmnopqrstuvwxyz0123456789+/"

/-- Modelled from the spec: Base64 encoding with `=` padding (the
`base64_encode` implementation file is not among the sources; `base64.h`
declares it). -/
def base64Encode : List Nat → List Nat
  | [] => []
  | [b0] =>
    [base64Chars.getD (b0 >>> 2) 0, base64Chars.getD ((b0 &&& 0x3) <<< 4) 0, 61, 61]
  | [b0, b1] =>
    [base64Chars.getD (b0 >>> 2) 0,
     base64Chars.getD (((b0 &&& 0x3) <<< 4) ||| (b1 >>> 4)) 0,
     base64Chars.getD ((b1 &&& 0xF) <<< 2) 0, 61]
  | b0 :: b1 :: b2 :: rest =>
    [base64Chars.getD (b0 >>> 2) 0,
     base64Chars.getD (((b0 &&& 0x3) <<< 4) ||| (b1 >>> 4)) 0,
     base64Chars.getD (((b1 &&& 0xF) <<< 2) ||| (b2 >>> 6)) 0,
     base64Chars.getD (b2 &&& 0x3F) 0] ++ base64Encode rest

/-! ## WebSocket: handshake -/

/-- Embedding of the file-static `WEBSOCKET_GUID`. -/
def WEBSOCKET_GUID : List Nat := strBytes "258EAFA5-E914-47DA-95CA-C5AB0DC85B11"

/-- Embedding of `WebSocketProtocol::calculateHandshakeKey`:
`base64_encode(SHA1(clientKey + WEBSOCKET_GUID))`. -/
def calculateHandshakeKey (clientKey : List Nat) : List Nat :=
  base64Encode (sha1 (clientKey ++ WEBSOCKET_GUID))

/-- Embedding of `WebSocketProtocol::generateHandshakeResponse`. -/
def generateHandshakeResponse (clientKey : List Nat) : List Nat :=
  strBytes "HTTP/1.1 101 Switching Protocols\r\nUpgrade: websocket\r\nConnection: Upgrade\r\nSec-WebSocket-Accept: "
    ++ calculateHandshakeKey clientKey ++ strBytes "\r\n\r\n"

/-- Skip ASCII spaces starting at `i` (the `while (data[keyPos] == ' ')`
loop), fuel-indexed. -/
def skipSpacesGo (data : List Nat) : Nat → Nat → Nat
  | 0, i => i
  | fuel + 1, i =>
    if i < data.length && data.getD i 0 == 32 then skipSpacesGo data fuel (i + 1)
    else i

/-- Byte is one of space, tab, CR, LF (the trim set `" \t\r\n"`). -/
def isTrimByte (b : Nat) : Bool := b == 32 || b == 9 || b == 13 || b == 10

/-- Trim the set `" \t\r\n"` at both ends, as the two `erase` calls do. -/
def trimBytes (s : List Nat) : List Nat :=
  ((s.dropWhile isTrimByte).reverse.dropWhile isTrimByte).reverse

/-- Embedding of `WebSocketProtocol::handleHandshake`.  Returns the handshake
response on success (the C++ sends it through `rawFrameCallback_`, which we
model as always installed, and returns `true`); `none` when any of the checks
fails and the C++ returns `false`. -/
def handleHandshake (data : List Nat) : Option (List Nat) :=
  if findFrom data (strBytes "GET ") 0 ≠ some 0 then none
  else if findFrom data (strBytes "Upgrade:") 0 = none
       ∧ findFrom data (strBytes "upgrade:") 0 = none then none
  else if findFrom data (strBytes "websocket") 0 = none
       ∧ findFrom data (strBytes "WebSocket") 0 = none then none
  else
    let keyPosOpt :=
      match findFrom data (strBytes "Sec-WebSocket-Key:") 0 with
      | some p => some p
      | none => findFrom data (strBytes "sec-websocket-key:") 0
    match keyPosOpt with
    | none => none
    | some p0 =>
      let keyPos := skipSpacesGo data (data.length + 1) (p0 + 18)
      let keyEnd :=
        match findFrom data [13, 10] keyPos with
        | some e => e
        | none =>
          match findFrom data [10] keyPos with
          | some e => e
          | none => data.length
      let clientKey := trimBytes ((data.drop keyPos).take (keyEnd - keyPos))
      some (generateHandshakeResponse clientKey)

/-! ## WebSocket: `onDataReceived` -/

/-- Per-connection protocol instance state: `state_` and `buffer_`. -/
structure WS where
  state : WSState
  buffer : List Nat
  deriving Repr, DecidableEq

/-- Result of one `onDataReceived` call: return value (bytes reported
consumed), the instance afterwards, raw frames and application packets
emitted during the call. -/
structure RecvOut where
  consumed : Nat
  ws : WS
  raws : List (List Nat)
  pkts : List (List Nat)
  deriving Repr, DecidableEq

/-- Outcome of the frame loop of `onDataReceived`: `stopped` records whether
the loop exited through a `parseFrame` failure (the early-`return` branch of
the C++ loop). -/
structure LoopOut where
  stopped : Bool
  total : Nat
  st : WSState
  raws : List (List Nat)
  pkts : List (List Nat)
  deriving Repr, DecidableEq

/-- Fuel-indexed embedding of the `while (totalConsumed < buffer_.size())`
loop of `onDataReceived`. -/
def frameLoop (buffer : List Nat) :
    Nat → WSState → Nat → List (List Nat) → List (List Nat) → LoopOut
  | 0, st, total, raws, pkts => ⟨false, total, st, raws, pkts⟩
  | fuel + 1, st, total, raws, pkts =>
    if total < buffer.length then
      let r := parseFrame st (buffer.drop total)
      if r.ok then
        frameLoop buffer fuel r.st (total + r.consumed) (raws ++ r.raws) (pkts ++ r.pkts)
      else
        ⟨true, total + r.consumed, r.st, raws ++ r.raws, pkts ++ r.pkts⟩
    else ⟨false, total, st, raws, pkts⟩

/-- Embedding of `WebSocketProtocol::onDataReceived`.  CONNECTING: the
current chunk alone is given to `handleHandshake`; success moves to OPEN and
clears the buffer, failure moves to CLOSED (`errorCallback_` fires).  OPEN
and CLOSING: append to the buffer and run the frame loop; on a `parseFrame`
failure the processed prefix is erased and the call reports
`totalConsumed ? totalConsumed : length`.  CLOSED: report the whole input as
consumed and do nothing. -/
def onDataReceived (ws : WS) (data : List Nat) : RecvOut :=
  match ws.state with
  | .connecting =>
    match handleHandshake data with
    | some resp => ⟨data.length, ⟨.opened, []⟩, [resp], []⟩
    | none => ⟨data.length, ⟨.closed, ws.buffer⟩, [], []⟩
  | .closed => ⟨data.length, ws, [], []⟩
  | st =>
    let buf := ws.buffer ++ data
    let r := frameLoop buf (buf.length + 1) st 0 [] []
    if r.stopped then
      ⟨if r.total > 0 then r.total else data.length,
       ⟨r.st, buf.drop r.total⟩, r.raws, r.pkts⟩
    else
      ⟨r.total, ⟨r.st, buf.drop r.total⟩, r.raws, r.pkts⟩

/-! ## RESP: decimal digits, `std::to_string` / `std::stoll` -/

/-- Fuel-indexed big-endian decimal digit emission (ASCII). -/
def decDigitsGo : Nat → Nat → List Nat
  | 0, _ => []
  | fuel + 1, n => if n < 10 then [48 + n] else decDigitsGo fuel (n / 10) ++ [48 + n % 10]

/-- Embedding of `std::to_string` on an unsigned value: ASCII decimal digits. -/
def decDigits (n : Nat) : List Nat := decDigitsGo (n + 1) n

/-- Embedding of `std::to_string` on an `int64_t` value. -/
def intDecBytes (v : Int) : List Nat :=
  if v < 0 then 45 :: decDigits v.natAbs else decDigits v.toNat

/-- ASCII decimal digit. -/
def isDigitByte (b : Nat) : Bool := 48 ≤ b && b ≤ 57

/-- ASCII whitespace as classified by `isspace` in the C locale. -/
def isSpaceByte (b : Nat) : Bool := b == 32 || (9 ≤ b && b ≤ 13)

/-- Embedding of `std::stoll`: skip whitespace, optional sign, longest digit
run.  `none` models a thrown exception: `std::invalid_argument` when no
digits follow, `std::out_of_range` when the value leaves `int64_t`. -/
def stollModel (s : List Nat) : Option Int :=
  let s1 := s.dropWhile isSpaceByte
  let neg := s1.headD 0 == 45
  let s2 := if s1.headD 0 == 45 || s1.headD 0 == 43 then s1.tail else s1
  let digits := s2.takeWhile isDigitByte
  if digits = [] then none
  else
    let v : Nat := digits.foldl (fun a d => a * 10 + (d - 48)) 0
    if neg then if v ≤ 2 ^ 63 then some (-(v : Int)) else none
    else if v ≤ 2 ^ 63 - 1 then some (v : Int) else none

/-! ## RESP: decoding (`PureRedisProtocol::resp_decode`) -/

/-- Outcome of `resp_decode`: `fail` is the C++ `{false, {}}` (incomplete or
unsupported input, `consumed` left 0), `exn` is an escaping `std::stoll`
exception (the function has no handler), `ok args consumed` is
`{true, out}` with `consumed = pos`. -/
inductive RespResult where
  | exn
  | fail
  | ok (args : List (List Nat)) (consumed : Nat)
  deriving Repr, DecidableEq

/-- Embedding of the bulk-string loop of `resp_decode`, one iteration per
remaining `count`.  `size_t` arithmetic (`pos + len + 2` with `len` an
`int64_t`) is modelled exactly, including the unsigned wrap-around for
negative `len`, via arithmetic modulo `2 ^ 64`; `substr(pos, len)` clamps its
count to the remaining length, as `std::string::substr` does. -/
def respLoop (buf : List Nat) : Nat → Nat → List (List Nat) → RespResult
  | 0, pos, out => .ok out pos
  | k + 1, pos, out =>
    if pos + 1 ≥ buf.length then .fail
    else if buf.getD pos 0 ≠ 36 then .fail
    else match findFrom buf [13, 10] (pos + 1) with
    | none => .fail
    | some le =>
      match stollModel ((buf.drop (pos + 1)).take (le - (pos + 1))) with
      | none => .exn
      | some len =>
        let pos2 := le + 2
        let sum : Nat := ((((pos2 : Int) + len + 2) % (2 ^ 64 : Int))).toNat
        if sum > buf.length then .fail
        else
          let cnt : Nat := ((len % (2 ^ 64 : Int))).toNat
          respLoop buf k sum (out ++ [(buf.drop pos2).take cnt])

/-- Embedding of `PureRedisProtocol::resp_decode`.  Only the array form is
accepted; the element count and the bulk lengths are read with `std::stoll`
(which throws on non-numeric input — modelled by `RespResult.exn`). -/
def resp_decode (buf : List Nat) : RespResult :=
  if buf = [] then .fail
  else if buf.getD 0 0 ≠ 42 then .fail
  else match findFrom buf [13, 10] 1 with
  | none => .fail
  | some le =>
    match stollModel ((buf.drop 1).take (le - 1)) with
    | none => .exn
    | some count => respLoop buf count.toNat (le + 2) []

/-! ## RESP: reply formatting (`PureRedisProtocol::format*`) -/

/-- Embedding of `PureRedisProtocol::formatSimpleString`. -/
def formatSimpleString (s : List Nat) : List Nat := 43 :: (s ++ [13, 10])

/-- Embedding of `PureRedisProtocol::formatError`. -/
def formatError (e : List Nat) : List Nat := 45 :: (e ++ [13, 10])

/-- Embedding of `PureRedisProtocol::formatInteger`. -/
def formatInteger (v : Int) : List Nat := 58 :: (intDecBytes v ++ [13, 10])

/-- Embedding of `PureRedisProtocol::formatBulkString`. -/
def formatBulkString (s : List Nat) : List Nat :=
  36 :: (decDigits s.length ++ [13, 10] ++ s ++ [13, 10])

/-- Embedding of `PureRedisProtocol::formatArray`. -/
def formatArray (items : List (List Nat)) : List Nat :=
  42 :: (decDigits items.length ++ [13, 10] ++ (items.map formatBulkString).flatten)

/-- Embedding of `PureRedisProtocol::formatNull`. -/
def formatNull : List Nat := strBytes "$-1\r\n"

/-! ## KV store (`m_stringData`, a `std::map<std::string, std::string>`) -/

/-- Lexicographic byte comparison (the `std::map` key order; `char_traits`
compares as unsigned bytes). -/
def cmpBytes : List Nat → List Nat → Ordering
  | [], [] => .eq
  | [], _ :: _ => .lt
  | _ :: _, [] => .gt
  | a :: as, b :: bs => if a < b then .lt else if b < a then .gt else cmpBytes as bs

/-- The string store, kept sorted by `cmpBytes` as a `std::map` is. -/
abbrev KVStore := List (List Nat × List Nat)

/-- Sorted insert-or-assign (`m_stringData[k] = v`). -/
def insertKV : KVStore → List Nat → List Nat → KVStore
  | [], k, v => [(k, v)]
  | (k0, v0) :: rest, k, v =>
    match cmpBytes k k0 with
    | .lt => (k, v) :: (k0, v0) :: rest
    | .eq => (k, v) :: rest
    | .gt => (k0, v0) :: insertKV rest k v

/-- Lookup (`m_stringData.find`). -/
def lookupKV : KVStore → List Nat → Option (List Nat)
  | [], _ => none
  | (k0, v0) :: rest, k => if cmpBytes k k0 = .eq then some v0 else lookupKV rest k

/-- Erase, returning the store and the erased count (`m_stringData.erase`). -/
def eraseKV : KVStore → List Nat → KVStore × Nat
  | [], _ => ([], 0)
  | (k0, v0) :: rest, k =>
    if cmpBytes k k0 = .eq then (rest, 1)
    else
      let (r2, c) := eraseKV rest k
      ((k0, v0) :: r2, c)

/-- ASCII upper-casing of one byte (`::toupper`, C locale). -/
def upperByte (b : Nat) : Nat := if 97 ≤ b ∧ b ≤ 122 then b - 32 else b

/-- Upper-case a whole byte string (the `std::transform` over `cmd`). -/
def upperBytes (s : List Nat) : List Nat := s.map upperByte

/-! ## RESP: command execution (`PureRedisProtocol::executeRedisCommand`) -/

/-- Embedding of `PureRedisProtocol::executeRedisCommand`: upper-cases the
first argument and dispatches exactly the guards of the source, in source
order; every invocation failing all guards gets
`-ERR unknown command '<CMD>'`. -/
def executeRedisCommand (store : KVStore) (args : List (List Nat)) :
    KVStore × List Nat :=
  let cmd := upperBytes (args.getD 0 [])
  if cmd = strBytes "COMMAND" then (store, formatArray [])
  else if cmd = strBytes "PING" then
    if args.length = 1 then (store, formatSimpleString (strBytes "PONG"))
    else if args.length = 2 then (store, formatBulkString (args.getD 1 []))
    else (store, formatError (strBytes "ERR wrong number of arguments for 'ping' command"))
  else if cmd = strBytes "SET" ∧ args.length = 3 then
    (insertKV store (args.getD 1 []) (args.getD 2 []), formatSimpleString (strBytes "OK"))
  else if cmd = strBytes "GET" ∧ args.length = 2 then
    match lookupKV store (args.getD 1 []) with
    | none => (store, formatNull)
    | some v => (store, formatBulkString v)
  else if cmd = strBytes "DEL" ∧ 2 ≤ args.length then
    let (store2, deleted) := (args.drop 1).foldl
      (fun (p : KVStore × Nat) k => let (s2, c) := eraseKV p.1 k; (s2, p.2 + c))
      (store, 0)
    (store2, formatInteger deleted)
  else if cmd = strBytes "KEYS" ∧ args.length = 2 then
    (store, formatArray (store.map Prod.fst))
  else (store, formatError (strBytes "ERR unknown command '" ++ cmd ++ strBytes "'"))

/-! ## RESP: inbound processing (`PureRedisProtocol::onClientDataReceived`) -/

/-- Strip any number of leading 4-byte heartbeat magics `FA FB FC FD`
(`PureRedisProtocol::filterHeartbeat`), fuel-indexed. -/
def filterHeartbeat : Nat → List Nat → List Nat
  | 0, s => s
  | fuel + 1, s =>
    if s.take 4 = [0xFA, 0xFB, 0xFC, 0xFD] then filterHeartbeat fuel (s.drop 4) else s

/-- Drop every NUL byte (`PureRedisProtocol::filterNullBytes`). -/
def filterNullBytes (s : List Nat) : List Nat := s.filter (fun b => b ≠ 0)

/-- Outcome of `onClientDataReceived` for one connection: `exn` when the
unhandled `std::stoll` exception escapes; otherwise the store, the remaining
buffer, the RESP replies sent (via `sendDirectResponse`) and the returned
processed-byte count. -/
inductive RedisRecv where
  | exn
  | ok (store : KVStore) (buffer : List Nat) (responses : List (List Nat)) (processed : Nat)
  deriving Repr, DecidableEq

/-- Embedding of the drain loop of `onClientDataReceived`: decode, execute on
non-empty argument lists, erase the consumed prefix, repeat until a decode
reports incomplete. -/
def redisLoop : Nat → KVStore → List Nat → List (List Nat) → Nat → RedisRecv
  | 0, store, buffer, responses, processed => .ok store buffer responses processed
  | fuel + 1, store, buffer, responses, processed =>
    match resp_decode buffer with
    | .exn => .exn
    | .fail => .ok store buffer responses processed
    | .ok args consumed =>
      if args = [] then
        redisLoop fuel store (buffer.drop consumed) responses (processed + consumed)
      else
        let (store2, resp) := executeRedisCommand store args
        redisLoop fuel store2 (buffer.drop consumed) (responses ++ [resp])
          (processed + consumed)

/-- Embedding of `PureRedisProtocol::onClientDataReceived` for one
connection: append to the buffer, strip heartbeat magics and NUL bytes, then
drain complete commands. -/
def onClientDataReceived (store : KVStore) (buffer data : List Nat) : RedisRecv :=
  let b1 := buffer ++ data
  let b2 := filterNullBytes (filterHeartbeat (b1.length + 1) b1)
  redisLoop (b2.length + 1) store b2 [] 0

/-! ## Connection engine send queue (`TcpServer::sendData`,
`TcpServer::flushSendBuffer`) -/

/-- Behaviour of one kernel `send` call: it accepts `n` bytes, reports
`EAGAIN`/`EWOULDBLOCK`, or fails with another error. -/
inductive SendResult where
  | accepted (n : Nat)
  | eagain
  | err
  deriving Repr, DecidableEq

/-- Per-connection send state: the queue of outbound chunks
(`m_sendBuffers[fd]`), whether WRITE interest is registered with the
multiplexer, and whether `handleClose` has run. -/
structure ConnState where
  queue : List (List Nat)
  writeInterest : Bool
  closed : Bool
  deriving Repr, DecidableEq

/-- Result of the `while (!it->second.empty())` drain loop. -/
inductive FlushRes where
  | ok (q : List (List Nat))
  | closedConn
  deriving Repr, DecidableEq

/-- Embedding of the drain loop of `flushSendBuffer`: each iteration `send`s
the head chunk, consuming one kernel response.  A short write keeps the
unwritten tail at the head and stops; `EAGAIN` stops; a full write pops the
head and continues; any other error runs `handleClose`.  An exhausted
response list stands for a kernel that is not called again (the theorems
always supply enough responses). -/
def flushLoop : List SendResult → List (List Nat) → FlushRes
  | _, [] => .ok []
  | [], q => .ok q
  | r :: rs, chunk :: q =>
    match r with
    | .err => .closedConn
    | .eagain => .ok (chunk :: q)
    | .accepted n =>
      if n < chunk.length then .ok (chunk.drop n :: q)
      else flushLoop rs q

/-- Embedding of `TcpServer::flushSendBuffer`: missing or empty queue
returns immediately (without touching the interest mask); otherwise drain,
then clear WRITE interest iff the queue emptied.  `handleClose` erases the
send buffer and closes the connection. -/
def flushSendBuffer (rs : List SendResult) (st : ConnState) : ConnState :=
  if st.closed then st
  else if st.queue = [] then st
  else match flushLoop rs st.queue with
  | .closedConn => ⟨[], st.writeInterest, true⟩
  | .ok q2 => if q2 = [] then ⟨[], false, false⟩ else ⟨q2, st.writeInterest, false⟩

/-- Embedding of `TcpServer::sendData`: empty payloads are dropped;
otherwise the chunk is appended to the queue, a flush is attempted at once
and WRITE interest is registered iff the queue is still non-empty. -/
def sendData (rs : List SendResult) (st : ConnState) (data : List Nat) : ConnState :=
  if data = [] then st
  else
    let st1 : ConnState := ⟨st.queue ++ [data], st.writeInterest, st.closed⟩
    let st2 := flushSendBuffer rs st1
    if st2.queue ≠ [] then ⟨st2.queue, true, st2.closed⟩ else st2

/-! ## Concrete handshake inputs used by the boundary-behavior theorems -/

/-- First read of an upgrade request split in the middle of the
`Sec-WebSocket-Key` header name. -/
def wsReq1 : List Nat :=
  strBytes "GET /chat HTTP/1.1\r\nHost: server.example.com\r\nUpgrade: websocket\r\nConnection: Upgrade\r\nSec-WebSoc"

/-- Second read: the rest of the same upgrade request. -/
def wsReq2 : List Nat :=
  strBytes "ket-Key: dGhlIHNhbXBsZSBub25jZQ==\r\nSec-WebSocket-Version: 13\r\n\r\n"

/-! # Theorems -/

theorem unmaskFrom_unmaskFrom (key : List Nat) (i : Nat) (p : List Nat) :
    unmaskFrom key i (unmaskFrom key i p) = p := by
  induction p generalizing i with
  | nil => rfl
  | cons b bs ih =>
    simp only [unmaskFrom, Nat.xor_cancel_right, ih]

/-- C7: For every 4-byte mask key K and every payload byte sequence P,
applying the byte-wise XOR unmasking (`payload[i] ^ key[i mod 4]`) twice is
the identity: `unmask(mask(P,K),K) = P`.  Masking and unmasking are the same
byte-wise XOR, with the key indexed byte-by-byte (no byte-order conversion),
so the statement is involutivity of `unmaskPayload` in its payload argument,
for arbitrary keys and payloads. -/
theorem unmask_mask_identity (key payload : List Nat) :
    unmaskPayload (unmaskPayload payload key) key = payload :=
  unmaskFrom_unmaskFrom key 0 payload

/-- C10: Once a WebSocket protocol instance is CLOSED, `onDataReceived`
reports the whole input as consumed, emits no raw frames and no application
packets, and leaves state and buffer unchanged. -/
theorem closed_state_ignores_input (ws : WS) (data : List Nat)
    (h : ws.state = .closed) :
    onDataReceived ws data = ⟨data.length, ws, [], []⟩ := by
  obtain ⟨st, buf⟩ := ws
  simp only at h
  subst h
  rfl

/-- Witness for C10 at a concrete closed instance and input. -/
theorem closed_state_ignores_input_witness :
    onDataReceived ⟨WSState.closed, [1, 2]⟩ [5, 6, 7] =
      ⟨3, ⟨WSState.closed, [1, 2]⟩, [], []⟩ :=
  closed_state_ignores_input ⟨WSState.closed, [1, 2]⟩ [5, 6, 7] rfl

/-- C1 counterexample: a CONTINUATION frame (opcode 0x0, here the unmasked
empty frame `80 00`) is NOT handled without being treated as a protocol
error: `parseFrame` has no CONTINUATION case, so the frame falls into the
`default` branch, which emits CLOSE 1003 and moves the machine to CLOSED.
Moreover an opcode outside the six (0xB, frame `8B 00`) does NOT get CLOSE
1003: the early opcode check rejects it with nothing consumed, no CLOSE
frame and no state change. -/
theorem continuation_close1003_cex :
    parseFrame WSState.opened [0x80, 0] =
      ⟨false, 2, WSState.closed, [packClose 1003 (strBytes "Unknown frame type")], []⟩ ∧
    parseFrame WSState.opened [0x8B, 0] = ⟨false, 0, WSState.opened, [], []⟩ := by
  decide

/-- C1 amended: after the handshake, TEXT, BINARY, PING, PONG and CLOSE
frames are handled without protocol error; CONTINUATION (0x0) and the
reserved opcodes 0x3–0x7 cause the engine to send CLOSE 1003 and move to
CLOSED; opcodes 0xB–0xF make `parseFrame` reject the frame with nothing
consumed, no CLOSE frame and no state change.  Stated over the single
empty-payload unmasked frame `[0x80 ||| op, 0]` for every opcode `op < 16`. -/
theorem opcode_dispatch_amended : ∀ op : Nat, op < 16 →
    (let r := parseFrame WSState.opened [0x80 ||| op, 0]
     (op = 1 ∨ op = 2 → r = ⟨true, 2, WSState.opened, [], [[]]⟩) ∧
     (op = 9 → r = ⟨true, 2, WSState.opened, [packPong []], []⟩) ∧
     (op = 10 → r = ⟨true, 2, WSState.opened, [], []⟩) ∧
     (op = 8 → r = ⟨false, 2, WSState.closed, [], []⟩) ∧
     (op = 0 ∨ (3 ≤ op ∧ op ≤ 7) →
       r = ⟨false, 2, WSState.closed, [packClose 1003 (strBytes "Unknown frame type")], []⟩) ∧
     (11 ≤ op → r = ⟨false, 0, WSState.opened, [], []⟩)) := by
  decide

/-- Witness for the amended C1 theorem at opcode 0 (CONTINUATION). -/
theorem opcode_dispatch_amended_witness :
    parseFrame WSState.opened [0x80 ||| 0, 0] =
      ⟨false, 2, WSState.closed, [packClose 1003 (strBytes "Unknown frame type")], []⟩ :=
  ((opcode_dispatch_amended 0 (by decide)).2.2.2.2.1 (Or.inl rfl))

/-- C2 counterexample: the masked TEXT frame `81 82 12 34 56 78 D2 B4`
unmasks to the overlong sequence `C0 80`, which is not strictly valid UTF-8,
yet the engine delivers it to the application, emits no CLOSE frame and
stays OPEN — the structural `isValidUtf8` accepts it. -/
theorem overlong_utf8_delivered_cex :
    strictUtf8 [0xC0, 0x80] = false ∧
    unmaskPayload [0xD2, 0xB4] [0x12, 0x34, 0x56, 0x78] = [0xC0, 0x80] ∧
    parseFrame WSState.opened [0x81, 0x82, 0x12, 0x34, 0x56, 0x78, 0xD2, 0xB4] =
      ⟨true, 8, WSState.opened, [], [[0xC0, 0x80]]⟩ := by
  decide

/-- Helper for C2: the header of the 8-byte masked 2-byte-payload frame
`81 82 k0 k1 k2 k3 a b` parses to a masked TEXT header with key
`[k0, k1, k2, k3]` and header size 6, for arbitrary bytes. -/
theorem parseFrameHeader_masked2 (k0 k1 k2 k3 a b : Nat) :
    parseFrameHeader [0x81, 0x82, k0, k1, k2, k3, a, b] =
      some (⟨true, false, false, false, 1, true, 2, [k0, k1, k2, k3]⟩, 6) := by
  simp [parseFrameHeader, MAX_FRAME_SIZE, List.getD,
    show (130 : Nat) &&& 127 = 2 from by decide,
    show (130 : Nat) &&& 128 = 128 from by decide,
    show (129 : Nat) &&& 128 = 128 from by decide,
    show (129 : Nat) &&& 64 = 0 from by decide,
    show (129 : Nat) &&& 32 = 0 from by decide,
    show (129 : Nat) &&& 16 = 0 from by decide,
    show (129 : Nat) &&& 15 = 1 from by decide]

set_option maxHeartbeats 1000000 in
/-- C2 amended: TEXT payloads are validated by the structural
lead/continuation byte check `isValidUtf8`, not by strict UTF-8 validation.
A payload failing the structural check — such as `C3 28`, shown here for
every 4-byte mask key — makes the engine emit CLOSE 1007 and transition to
CLOSED without delivering the payload; but payloads that are structurally
well-formed while not strictly valid UTF-8, such as the overlong `C0 80`,
pass the check and are delivered to the application with no CLOSE frame. -/
theorem text_utf8_policy_amended :
    (∀ k0 k1 k2 k3 : Nat,
      parseFrame WSState.opened
          [0x81, 0x82, k0, k1, k2, k3, 0xC3 ^^^ k0, 0x28 ^^^ k1] =
        ⟨false, 8, WSState.closed,
         [packClose 1007 (strBytes "Invalid UTF-8 in TEXT frame")], []⟩) ∧
    (strictUtf8 [0xC0, 0x80] = false ∧
     parseFrame WSState.opened [0x81, 0x82, 0x12, 0x34, 0x56, 0x78, 0xD2, 0xB4] =
       ⟨true, 8, WSState.opened, [], [[0xC0, 0x80]]⟩) := by
  constructor
  · intro k0 k1 k2 k3
    have hpay : unmaskPayload [0xC3 ^^^ k0, 0x28 ^^^ k1] [k0, k1, k2, k3] = [0xC3, 0x28] := by
      simp only [unmaskPayload, unmaskFrom, List.getD]
      norm_num [Nat.xor_cancel_right]
    simp [parseFrame, parseFrameHeader_masked2, hpay,
      show isValidUtf8 [195, 40] = false from by decide,
      show (129 : Nat) &&& 15 = 1 from by decide]
  · decide

/-- C3 counterexample: `LPUSH k v` is NOT executed against the key/value
store — `executeRedisCommand` has no guard for it, so it falls through to
the unknown-command reply and leaves the store untouched. -/
theorem lpush_unknown_command_cex :
    executeRedisCommand [] [strBytes "LPUSH", strBytes "k", strBytes "v"] =
      ([], formatError (strBytes "ERR unknown command 'LPUSH'")) := by
  decide

/-- C3 amended: the implemented command surface of
`PureRedisProtocol::executeRedisCommand` is COMMAND, PING, SET, GET, DEL and
KEYS; the list and hash commands LPUSH, LPOP, LRANGE, HSET, HGET, HKEYS are
outside it: for every store and every argument tail they receive the reply
`-ERR unknown command '<CMD>'` (command upper-cased) with the store
unchanged, and the connection stays open — processing continues with the
next pipelined command, as the concrete LPUSH-then-PING run shows. -/
theorem command_surface_amended :
    (∀ (store : KVStore) (name : List Nat) (rest : List (List Nat)),
      upperBytes name ∈ [strBytes "LPUSH", strBytes "LPOP", strBytes "LRANGE",
                         strBytes "HSET", strBytes "HGET", strBytes "HKEYS"] →
      executeRedisCommand store (name :: rest) =
        (store, formatError (strBytes "ERR unknown command '" ++ upperBytes name
                              ++ strBytes "'"))) ∧
    onClientDataReceived [] []
        (formatArray [strBytes "LPUSH", strBytes "k", strBytes "v"]
          ++ formatArray [strBytes "PING"]) =
      .ok [] [] [formatError (strBytes "ERR unknown command 'LPUSH'"),
                 formatSimpleString (strBytes "PONG")] 43 := by
  constructor
  · intro store name rest hmem
    simp only [List.mem_cons, List.mem_singleton, List.not_mem_nil, or_false] at hmem
    rcases hmem with h | h | h | h | h | h <;>
      simp [executeRedisCommand, h, strBytes]
  · decide

/-- Witness for the amended C3 theorem at `HGET h f` on a non-empty store. -/
theorem command_surface_amended_witness :
    executeRedisCommand [([107], [118])] [strBytes "hget", strBytes "h", strBytes "f"] =
      ([([107], [118])],
       formatError (strBytes "ERR unknown command '" ++ upperBytes (strBytes "hget")
                     ++ strBytes "'")) :=
  command_surface_amended.1 [([107], [118])] (strBytes "hget")
    [strBytes "h", strBytes "f"] (by decide)

/-- C5: evaluation of `resp_decode` at malformed length fields.  A negative
array count (`*-1\r\n`) makes decoding SUCCEED with an empty argument list,
consuming 5 bytes, and the connection stays open (a following pipelined PING
is still answered); a non-numeric count (`*x\r\n`) makes the embedded
`std::stoll` throw, and `onClientDataReceived` has no handler, so the
exception escapes instead of being confined to an error result.  Both
contradict the claim that such input never decodes and fails fatally with
the connection closed. -/
theorem resp_malformed_length_bug :
    resp_decode (strBytes "*-1\r\n") = .ok [] 5 ∧
    resp_decode (strBytes "*x\r\n") = .exn ∧
    onClientDataReceived [] [] (strBytes "*-1\r\n" ++ formatArray [strBytes "PING"]) =
      .ok [] [] [formatSimpleString (strBytes "PONG")] 19 ∧
    onClientDataReceived [] [] (strBytes "*x\r\n") = .exn := by
  decide

/-- C6: the send-queue discipline of `TcpServer::sendData` and
`TcpServer::flushSendBuffer`.  (1) When the kernel accepts `n` bytes of the
head chunk with `n` short of its length, the remaining bytes stay at the
head of the queue; (2) after `sendData`, a non-empty queue always has WRITE
interest registered; (3) a flush that empties a non-empty queue (without
closing the connection) clears WRITE interest; (4) the spec's concrete
scenario: of a 10-byte frame the kernel accepts 3 bytes — the remaining 7
stay queued and WRITE is registered; the next WRITE-ready flush writes the
remaining 7 and clears WRITE. -/
theorem send_queue_invariant :
    (∀ (chunk : List Nat) (q : List (List Nat)) (n : Nat) (rs : List SendResult),
      n < chunk.length →
      flushLoop (.accepted n :: rs) (chunk :: q) = .ok (chunk.drop n :: q)) ∧
    (∀ (rs : List SendResult) (st : ConnState) (data : List Nat),
      data ≠ [] → (sendData rs st data).queue ≠ [] →
      (sendData rs st data).writeInterest = true) ∧
    (∀ (rs : List SendResult) (st : ConnState),
      (flushSendBuffer rs st).closed = false → st.queue ≠ [] →
      (flushSendBuffer rs st).queue = [] →
      (flushSendBuffer rs st).writeInterest = false) ∧
    (sendData [.accepted 3] ⟨[], false, false⟩ (List.range 10) =
        ⟨[[3, 4, 5, 6, 7, 8, 9]], true, false⟩ ∧
      flushSendBuffer [.accepted 7] ⟨[[3, 4, 5, 6, 7, 8, 9]], true, false⟩ =
        ⟨[], false, false⟩) := by
  refine ⟨?_, ?_, ?_, by decide⟩
  · intro chunk q n rs hn
    simp [flushLoop, hn]
  · intro rs st data hd hq
    simp only [sendData, if_neg hd] at hq ⊢
    by_cases h2 : (flushSendBuffer rs ⟨st.queue ++ [data], st.writeInterest, st.closed⟩).queue = []
    · simp [h2] at hq
    · simp [h2]
  · intro rs st h1 h2 h3
    by_cases hc : st.closed
    · simp [flushSendBuffer, hc] at h1
    · simp only [flushSendBuffer, if_neg hc, if_neg h2] at h1 h3 ⊢
      cases heq : flushLoop rs st.queue with
      | closedConn => simp [heq] at h1
      | ok q2 =>
        simp only [heq] at h1 h3 ⊢
        by_cases hq2 : q2 = []
        · simp [hq2]
        · simp [hq2] at h3

/-- Witness for C6 at concrete queues and kernel responses. -/
theorem send_queue_invariant_witness :
    flushLoop [.accepted 1] [[7, 8], [9]] = .ok [[8], [9]] ∧
    (sendData [] ⟨[], false, false⟩ [1]).writeInterest = true ∧
    (flushSendBuffer [.accepted 1] ⟨[[5]], true, false⟩).writeInterest = false :=
  ⟨send_queue_invariant.1 [7, 8] [[9]] 1 [] (by decide),
   send_queue_invariant.2.1 [] ⟨[], false, false⟩ [1] (by decide) (by decide),
   send_queue_invariant.2.2.1 [.accepted 1] ⟨[[5]], true, false⟩
     (by decide) (by decide) (by decide)⟩

set_option maxRecDepth 100000 in
/-- C8: the handshake accept token is
`Base64(SHA-1(clientKey ++ "258EAFA5-E914-47DA-95CA-C5AB0DC85B11"))` for
every client key — `calculateHandshakeKey` is exactly that composition — and
at the RFC 6455 sample key `dGhlIHNhbXBsZSBub25jZQ==` it evaluates to
`s3pPLMBiTxaQ9kYGzzhZRbK+xOo=`. -/
theorem handshake_accept_token :
    (∀ clientKey : List Nat,
      calculateHandshakeKey clientKey =
        base64Encode (sha1 (clientKey ++ WEBSOCKET_GUID))) ∧
    calculateHandshakeKey (strBytes "dGhlIHNhbXBsZSBub25jZQ==") =
      strBytes "s3pPLMBiTxaQ9kYGzzhZRbK+xOo=" :=
  ⟨fun _ => rfl, by decide⟩

set_option maxRecDepth 100000 in
/-- C4: a well-formed upgrade request delivered as two reads split in the
middle of the `Sec-WebSocket-Key` header does NOT complete.  The CONNECTING
branch of `onDataReceived` hands only the current chunk to
`handleHandshake`, which cannot find the key header in the first read, so
the engine transitions to CLOSED, emits nothing, and ignores the second
read entirely.  The same request delivered in a single read completes with
OPEN and the 101 response, showing the request itself is well-formed — the
failure is the missing handshake buffering. -/
theorem handshake_split_two_reads_bug :
    (onDataReceived ⟨WSState.connecting, []⟩ wsReq1).ws = ⟨WSState.closed, []⟩ ∧
    (onDataReceived ⟨WSState.connecting, []⟩ wsReq1).raws = [] ∧
    (onDataReceived ⟨WSState.connecting, []⟩ wsReq1).pkts = [] ∧
    onDataReceived ⟨WSState.closed, []⟩ wsReq2 =
      ⟨wsReq2.length, ⟨WSState.closed, []⟩, [], []⟩ ∧
    (onDataReceived ⟨WSState.connecting, []⟩ (wsReq1 ++ wsReq2)).ws =
      ⟨WSState.opened, []⟩ ∧
    (onDataReceived ⟨WSState.connecting, []⟩ (wsReq1 ++ wsReq2)).raws =
      [strBytes "HTTP/1.1 101 Switching Protocols\r\nUpgrade: websocket\r\nConnection: Upgrade\r\nSec-WebSocket-Accept: s3pPLMBiTxaQ9kYGzzhZRbK+xOo=\r\n\r\n"] := by
  decide


/-! ## Lemmas for the RESP encode/decode round trip (claim C9) -/

theorem decDigitsGo_spec : ∀ fuel n, n < fuel →
    (∀ d ∈ decDigitsGo fuel n, 48 ≤ d ∧ d ≤ 57) ∧
    decDigitsGo fuel n ≠ [] ∧
    ∀ acc : Nat, (decDigitsGo fuel n).foldl (fun a d => a * 10 + (d - 48)) acc
      = acc * 10 ^ (decDigitsGo fuel n).length + n := by
  intro fuel
  induction fuel with
  | zero => intro n h; omega
  | succ fuel ih =>
    intro n hn
    by_cases h10 : n < 10
    · refine ⟨?_, ?_, ?_⟩
      · intro d hd
        simp [decDigitsGo, h10] at hd
        omega
      · simp [decDigitsGo, h10]
      · intro acc
        simp only [decDigitsGo, if_pos h10, List.foldl_cons, List.foldl_nil,
          List.length_cons, List.length_nil, pow_one, zero_add]
        omega
    · have hdiv : n / 10 < n := Nat.div_lt_self (by omega) (by omega)
      have hrec := ih (n / 10) (by omega)
      obtain ⟨hmem, hne, hfold⟩ := hrec
      refine ⟨?_, ?_, ?_⟩
      · intro d hd
        simp only [decDigitsGo, if_neg h10, List.mem_append, List.mem_singleton] at hd
        rcases hd with hd | hd
        · exact hmem d hd
        · omega
      · simp [decDigitsGo, h10]
      · intro acc
        simp only [decDigitsGo, if_neg h10, List.foldl_append, List.length_append,
          List.foldl_cons, List.foldl_nil, List.length_cons, List.length_nil, hfold]
        have hmod : n % 10 < 10 := Nat.mod_lt _ (by omega)
        have hdm : 10 * (n / 10) + n % 10 = n := Nat.div_add_mod n 10
        rw [pow_succ]
        ring_nf
        omega

theorem decDigits_spec (n : Nat) :
    (∀ d ∈ decDigits n, 48 ≤ d ∧ d ≤ 57) ∧
    decDigits n ≠ [] ∧
    (decDigits n).foldl (fun a d => a * 10 + (d - 48)) 0 = n := by
  have h := decDigitsGo_spec (n + 1) n (by omega)
  refine ⟨h.1, h.2.1, ?_⟩
  have := h.2.2 0
  simpa using this

theorem len_decDigitsGo_le : ∀ fuel n, (decDigitsGo fuel n).length ≤ fuel := by
  intro fuel
  induction fuel with
  | zero => intro n; simp [decDigitsGo]
  | succ fuel ih =>
    intro n
    by_cases h10 : n < 10
    · simp [decDigitsGo, h10]
    · simp only [decDigitsGo, if_neg h10, List.length_append, List.length_cons,
        List.length_nil]
      have := ih (n / 10)
      omega

theorem takeWhile_all {p : Nat → Bool} : ∀ l : List Nat, (∀ x ∈ l, p x = true) →
    l.takeWhile p = l := by
  intro l
  induction l with
  | nil => intro _; rfl
  | cons a as ih =>
    intro h
    have ha := h a (by simp)
    simp [List.takeWhile_cons, ha, ih fun x hx => h x (by simp [hx])]

theorem stoll_decDigits (n : Nat) (hn : n ≤ 2 ^ 63 - 1) :
    stollModel (decDigits n) = some (n : Int) := by
  obtain ⟨hmem, hne, hfold⟩ := decDigits_spec n
  obtain ⟨d, ds, hds⟩ : ∃ d ds, decDigits n = d :: ds := by
    cases h : decDigits n with
    | nil => exact absurd h hne
    | cons d ds => exact ⟨d, ds, rfl⟩
  have hd := hmem d (by simp [hds])
  have hsp : isSpaceByte d = false := by
    simp [isSpaceByte]
    omega
  have hdrop : (decDigits n).dropWhile isSpaceByte = decDigits n := by
    rw [hds, List.dropWhile_cons_of_neg (by simp [hsp])]
  have h45 : (d == 45) = false := by
    simp
    omega
  have h43 : (d == 43) = false := by
    simp
    omega
  have htake : (decDigits n).takeWhile isDigitByte = decDigits n := by
    refine takeWhile_all _ fun x hx => ?_
    have := hmem x hx
    simp [isDigitByte]
    omega
  have hdrop2 : List.dropWhile isSpaceByte (d :: ds) = d :: ds :=
    List.dropWhile_cons_of_neg (by simp [hsp])
  have htake2 : (d :: ds).takeWhile isDigitByte = d :: ds := by
    rw [← hds]; exact htake
  have hfold2 : (d :: ds).foldl (fun a x => a * 10 + (x - 48)) 0 = n := by
    rw [← hds]; exact hfold
  rw [hds]
  simp [stollModel, hdrop2, htake2, hfold2, hn,
    show ¬(d = 45) from by omega, show ¬(d = 43) from by omega]
  have hpow : (2 : Nat) ^ 63 - 1 = 9223372036854775807 := by norm_num
  omega

theorem findFromGo_hit (buf pat : List Nat) (fuel i : Nat)
    (h1 : i + pat.length ≤ buf.length) (h2 : pat.isPrefixOf (buf.drop i) = true) :
    findFromGo buf pat (fuel + 1) i = some i := by
  simp [findFromGo, h1, h2]

theorem findFromGo_miss (buf pat : List Nat) (fuel i : Nat)
    (h : pat.isPrefixOf (buf.drop i) = false) :
    findFromGo buf pat (fuel + 1) i = findFromGo buf pat fuel (i + 1) := by
  simp [findFromGo, h]

theorem findFrom_digits_crlf : ∀ (digits A rest : List Nat),
    (∀ d ∈ digits, 48 ≤ d ∧ d ≤ 57) →
    findFrom (A ++ (digits ++ 13 :: 10 :: rest)) [13, 10] A.length
      = some (A.length + digits.length) := by
  intro digits
  induction digits with
  | nil =>
    intro A rest _
    have hdrop : (A ++ ([] ++ 13 :: 10 :: rest)).drop A.length = 13 :: 10 :: rest := by
      simp
    have hlen : A.length + 2 ≤ (A ++ ([] ++ 13 :: 10 :: rest)).length := by
      simp
    have hfuel : (A ++ ([] ++ 13 :: 10 :: rest)).length + 1 - A.length
        = rest.length + 2 + 1 := by
      simp
      omega
    rw [findFrom, hfuel, findFromGo_hit _ _ _ _ (by simpa using hlen)
      (by rw [hdrop]; simp [List.isPrefixOf])]
    simp
  | cons d ds ih =>
    intro A rest hd
    have hd0 := hd d (by simp)
    have hdrop : (A ++ ((d :: ds) ++ 13 :: 10 :: rest)).drop A.length
        = d :: (ds ++ 13 :: 10 :: rest) := by
      simp
    have hmiss : [13, 10].isPrefixOf
        ((A ++ ((d :: ds) ++ 13 :: 10 :: rest)).drop A.length) = false := by
      rw [hdrop]
      simp [List.isPrefixOf]
      omega
    have hfuel : (A ++ ((d :: ds) ++ 13 :: 10 :: rest)).length + 1 - A.length
        = (ds.length + rest.length + 3) + 1 := by
      simp
      omega
    rw [findFrom, hfuel, findFromGo_miss _ _ _ _ hmiss]
    have hre : A ++ ((d :: ds) ++ 13 :: 10 :: rest)
        = (A ++ [d]) ++ (ds ++ 13 :: 10 :: rest) := by
      simp
    have hih := ih (A ++ [d]) rest (fun x hx => hd x (by simp [hx]))
    rw [hre] at *
    rw [findFrom] at hih
    have hfuel2 : ((A ++ [d]) ++ (ds ++ 13 :: 10 :: rest)).length + 1 - (A ++ [d]).length
        = ds.length + rest.length + 3 := by
      simp
      omega
    rw [hfuel2] at hih
    have hlA : (A ++ [d]).length = A.length + 1 := by simp
    rw [hlA] at hih
    rw [hih]
    simp
    omega

theorem respLoop_step (buf P s R : List Nat) (k : Nat) (out : List (List Nat))
    (hbuf : buf = P ++ (formatBulkString s ++ R))
    (hs : s.length ≤ 2 ^ 63 - 1)
    (hb : buf.length < 2 ^ 64) :
    respLoop buf (k + 1) P.length out
      = respLoop buf k (P.length + (formatBulkString s).length) (out ++ [s]) := by
  obtain ⟨hmem, hne, _⟩ := decDigits_spec s.length
  set dg := decDigits s.length with hdg
  have hdglen : 1 ≤ dg.length := by
    cases h : dg with
    | nil => exact absurd h hne
    | cons x xs => simp [h]
  have hB : (formatBulkString s).length = dg.length + s.length + 5 := by
    simp [formatBulkString, ← hdg]
    omega
  have hlenbuf : buf.length = P.length + (dg.length + s.length + 5) + R.length := by
    simp [hbuf, hB]
    omega
  -- step 1: the `pos + 1 >= buf.size()` guard is false
  have hc1 : ¬(P.length + 1 ≥ buf.length) = True := by
    simp
    omega
  -- step 2: the byte at `pos` is the bulk sigil
  have h36 : buf.getD P.length 0 = 36 := by
    rw [hbuf, List.getD_append_right P _ 0 P.length (le_refl _)]
    simp [formatBulkString]
  -- step 3: the CRLF search lands right after the length digits
  have hbuf2 : buf = (P ++ [36]) ++ (dg ++ 13 :: 10 :: (s ++ 13 :: 10 :: R)) := by
    simp [hbuf, formatBulkString, ← hdg]
  have hfind : findFrom buf [13, 10] (P.length + 1) = some (P.length + 1 + dg.length) := by
    rw [hbuf2]
    have := findFrom_digits_crlf dg (P ++ [36]) (s ++ 13 :: 10 :: R) hmem
    simpa using this
  -- step 4: the length digits are extracted exactly and parse to s.length
  have hdig : ((buf.drop (P.length + 1)).take (P.length + 1 + dg.length - (P.length + 1)))
      = dg := by
    have hdrop : buf.drop (P.length + 1) = dg ++ 13 :: 10 :: (s ++ 13 :: 10 :: R) := by
      rw [hbuf2]
      have : (P ++ [36]).length = P.length + 1 := by simp
      rw [← this, List.drop_left]
    rw [hdrop]
    have : P.length + 1 + dg.length - (P.length + 1) = dg.length := by omega
    rw [this]
    exact List.take_left _ _
  have hstoll : stollModel ((buf.drop (P.length + 1)).take
      (P.length + 1 + dg.length - (P.length + 1))) = some (s.length : Int) := by
    rw [hdig, hdg]
    exact stoll_decDigits s.length hs
  -- step 5: the size_t arithmetic does not wrap
  have hsum : (((((P.length + 1 + dg.length + 2 : Nat) : Int) + (s.length : Int) + 2)
      % (2 ^ 64 : Int))).toNat = P.length + dg.length + s.length + 5 := by
    have hcast : (((P.length + 1 + dg.length + 2 : Nat) : Int) + (s.length : Int) + 2)
        = ((P.length + dg.length + s.length + 5 : Nat) : Int) := by
      push_cast
      ring
    have hlt : ((P.length + dg.length + s.length + 5 : Nat) : Int) < 2 ^ 64 := by
      have h2 : P.length + dg.length + s.length + 5 < 2 ^ 64 := by omega
      exact_mod_cast h2
    rw [hcast, Int.emod_eq_of_lt (Int.natCast_nonneg _) hlt, Int.toNat_natCast]

  have hcnt : (((s.length : Nat) : Int) % (2 ^ 64 : Int)).toNat = s.length := by
    have hlt : ((s.length : Nat) : Int) < 2 ^ 64 := by
      have h2 : s.length < 2 ^ 64 := by omega
      exact_mod_cast h2
    rw [Int.emod_eq_of_lt (Int.natCast_nonneg _) hlt, Int.toNat_natCast]
  have hElem : (buf.drop (P.length + 1 + dg.length + 2)).take s.length = s := by
    have hbuf3 : buf = (P ++ 36 :: (dg ++ [13, 10])) ++ (s ++ 13 :: 10 :: R) := by
      simp [hbuf, formatBulkString, ← hdg]
    have hQ : (P ++ 36 :: (dg ++ [13, 10])).length = P.length + 1 + dg.length + 2 := by
      simp
      omega
    rw [hbuf3, ← hQ, List.drop_left]
    exact List.take_left _ _
  simp only [respLoop]
  rw [if_neg (show ¬(P.length + 1 ≥ buf.length) from by omega)]
  rw [if_neg (show ¬(buf.getD P.length 0 ≠ 36) from by rw [h36]; simp)]
  simp only [hfind, hstoll, hsum, hcnt, hElem]
  rw [if_neg (show ¬(P.length + dg.length + s.length + 5 > buf.length) from by omega)]
  have hfin : P.length + dg.length + s.length + 5 = P.length + (formatBulkString s).length := by
    omega
  rw [hfin]

theorem respLoop_bulks (buf : List Nat) : ∀ (ss : List (List Nat)) (P : List Nat) (out : List (List Nat)),
    buf = P ++ (ss.map formatBulkString).flatten →
    (∀ s ∈ ss, s.length ≤ 2 ^ 63 - 1) →
    buf.length < 2 ^ 64 →
    respLoop buf ss.length P.length out = .ok (out ++ ss) buf.length := by
  intro ss
  induction ss with
  | nil =>
    intro P out hbuf _ _
    simp only [List.map_nil, List.flatten_nil, List.append_nil] at hbuf
    subst hbuf
    simp [respLoop]
  | cons s ss ih =>
    intro P out hbuf hlen hb
    have hstep := respLoop_step buf P s ((ss.map formatBulkString).flatten) ss.length out
      (by simpa [List.append_assoc] using hbuf) (hlen s (by simp)) hb
    simp only [List.length_cons]
    rw [hstep]
    have hih := ih (P ++ formatBulkString s) (out ++ [s])
      (by simp [hbuf, List.append_assoc]) (fun x hx => hlen x (by simp [hx])) hb
    simpa [List.length_append] using hih

/-- C9: for every list of three byte strings `[a, b, c]` (of in-memory size,
here bounded by `2 ^ 60` bytes each, as any `std::string` is), decoding the
RESP array encoding of the list yields exactly the same list back and
consumes exactly the encoded bytes:
`resp_decode (formatArray [a,b,c]) = ok [a,b,c] |formatArray [a,b,c]|`. -/
theorem resp_encode_decode_roundtrip (a b c : List Nat)
    (ha : a.length ≤ 2 ^ 60) (hb : b.length ≤ 2 ^ 60) (hc : c.length ≤ 2 ^ 60) :
    resp_decode (formatArray [a, b, c]) =
      .ok [a, b, c] (formatArray [a, b, c]).length := by
  have hdec3 : decDigits 3 = [51] := by decide
  set F := ([a, b, c].map formatBulkString).flatten with hF
  have hform : formatArray [a, b, c] = 42 :: 51 :: 13 :: 10 :: F := by
    simp [formatArray, hdec3, hF]
  -- digit-count bounds give the overall length bound
  have hdla : (decDigits a.length).length ≤ a.length + 1 := len_decDigitsGo_le _ _
  have hdlb : (decDigits b.length).length ≤ b.length + 1 := len_decDigitsGo_le _ _
  have hdlc : (decDigits c.length).length ≤ c.length + 1 := len_decDigitsGo_le _ _
  have hBa : (formatBulkString a).length ≤ 2 * a.length + 6 := by
    simp [formatBulkString]
    omega
  have hBb : (formatBulkString b).length ≤ 2 * b.length + 6 := by
    simp [formatBulkString]
    omega
  have hBc : (formatBulkString c).length ≤ 2 * c.length + 6 := by
    simp [formatBulkString]
    omega
  have hFlen : F.length = (formatBulkString a).length + (formatBulkString b).length
      + (formatBulkString c).length := by
    simp [hF]
    omega
  have hblen : (42 :: 51 :: 13 :: 10 :: F).length < 2 ^ 64 := by
    simp only [List.length_cons]
    omega
  -- the CRLF after the element count is found at index 2
  have hfind : findFrom (42 :: 51 :: 13 :: 10 :: F) [13, 10] 1 = some 2 := by
    have h := findFrom_digits_crlf [51] [42] F (by decide)
    simpa using h
  have hstoll51 : stollModel [51] = some 3 := by decide
  -- run the decoder
  rw [hform]
  simp only [resp_decode]
  rw [if_neg (by simp)]
  rw [if_neg (by simp)]
  simp only [hfind]
  have htake1 : ((42 :: 51 :: 13 :: 10 :: F).drop 1).take (2 - 1) = [51] := by
    simp
  simp only [htake1, hstoll51]
  have hloop := respLoop_bulks (42 :: 51 :: 13 :: 10 :: F) [a, b, c] [42, 51, 13, 10] []
    (by simp [hF]) ?hlens hblen
  case hlens =>
    intro s hs
    have h63 : (2 : Nat) ^ 60 ≤ 2 ^ 63 - 1 := by norm_num
    simp only [List.mem_cons, List.not_mem_nil, or_false] at hs
    rcases hs with rfl | rfl | rfl <;> omega
  simp only [List.length_cons, List.length_nil] at hloop
  simpa using hloop

/-- Witness for C9 at three concrete byte strings, one containing a CRLF
and one empty. -/
theorem resp_encode_decode_roundtrip_witness :
    resp_decode (formatArray [[83, 69, 84], [13, 10], []]) =
      .ok [[83, 69, 84], [13, 10], []] (formatArray [[83, 69, 84], [13, 10], []]).length :=
  resp_encode_decode_roundtrip [83, 69, 84] [13, 10] []
    (by norm_num) (by norm_num) (by norm_num)
